import Mathlib

/-!
Shallow embedding of the Sapphillon-Front workflow dashboard sources
(src/lib/workflow-progress.ts, src/pages/workflows/useWorkflowRun.ts,
the useWorkflowGeneration hook, src/pages/generate/PluginsPanel.tsx,
src/components/workflow/WorkflowProgressDots.tsx and
src/components/workflow/WorkflowFunctionList.tsx), together with theorems
about the embedded operations.

JavaScript effects are made explicit: stateful hook bodies become lists of
primitive state actions (traces) with a fold interpreter, promises become
values of Except or explicit outcome types, and the host window bridge
becomes a record holding the optional host callback.  Wall-clock
timestamps (Date.now()) are abstracted to an explicit parameter where they
feed data, and the per-event t field is omitted; no property refers to it.
-/

/-- A JavaScript Error value, restricted to the fields the code inspects. -/
structure JsError where
  name : String
  message : String

/-- WorkflowProgressStep (src/lib/workflow-progress.ts:5-12).  The status
union type is embedded as a plain string. -/
structure WorkflowProgressStep where
  id : String
  functionId : String
  functionName : String
  status : String
  startedAt : Option Nat := none
  completedAt : Option Nat := none

/-- WorkflowProgressMessage (src/lib/workflow-progress.ts:14-25).  The
currentStepIndex is an Int because notifyWorkflowComplete computes
steps.length - 1, which is -1 for an empty step list. -/
structure WorkflowProgressMessage where
  type : String
  workflowId : String
  workflowName : Option String := none
  steps : Option (List WorkflowProgressStep) := none
  currentStepIndex : Option Int := none
  status : Option String := none

/-- Outcome of the host's sendWorkflowProgress promise: it either resolves
with a reply or rejects with an error. -/
inductive HostOutcome where
  | resolved (success : Bool) (error : Option String)
  | rejected (e : JsError)

/-- The window object as seen by the bridge
(src/lib/workflow-progress.ts:27-35): the OSAutomotor host hook is
optional. -/
structure HostWindow where
  OSAutomotor : Option (WorkflowProgressMessage → HostOutcome)

/-- Embedding of sendProgressMessage (src/lib/workflow-progress.ts:40-46).
The TS function returns void; here the first component lists the calls
made to the host and the second is the exception the function lets escape:
always none, because an absent host means no call is attempted and a
rejected host promise is swallowed by the catch handler. -/
def sendProgressMessage (w : HostWindow) (message : WorkflowProgressMessage) :
    List WorkflowProgressMessage × Option JsError :=
  match w.OSAutomotor with
  | none => ([], none)
  | some send =>
    match send message with
    | HostOutcome.resolved _ _ => ([message], none)
    | HostOutcome.rejected _ => ([message], none)

/-- Helper: with a host attached, sendProgressMessage posts exactly the
given message, whatever the host call does. -/
theorem sendProgressMessage_posts (w : HostWindow)
    (hw : w.OSAutomotor.isSome = true) (m : WorkflowProgressMessage) :
    (sendProgressMessage w m).1 = [m] := by
  cases h : w.OSAutomotor with
  | none => rw [h] at hw; simp at hw
  | some send => cases hs : send m <;> simp [sendProgressMessage, h, hs]

/-- Map with index, the embedding of JavaScript array.map((x, i) => ...),
generalised over the starting index. -/
def mapWithIndexFrom {α β : Type} (f : Nat → α → β) : Nat → List α → List β
  | _, [] => []
  | i, a :: rest => f i a :: mapWithIndexFrom f (i + 1) rest

/-- Map with index starting at 0. -/
def mapWithIndex {α β : Type} (f : Nat → α → β) (l : List α) : List β :=
  mapWithIndexFrom f 0 l

/-- Embedding of JavaScript String.split(".") on the character list of the
string: "a.b".split(".") = ["a","b"], "".split(".") = [""],
"a.".split(".") = ["a",""]. -/
def splitOnDot : List Char → List (List Char)
  | [] => [[]]
  | c :: rest =>
    match splitOnDot rest with
    | [] => [[]]
    | g :: gs => if c = '.' then [] :: g :: gs else (c :: g) :: gs

/-- Embedding of parseWorkflowSteps (src/lib/workflow-progress.ts:51-60).
split(".").pop() is the last split group (split never yields an empty
array); the JavaScript || falls back to the whole id when that group is
the empty string. -/
def parseWorkflowSteps (pluginFunctionIds : List String) :
    List WorkflowProgressStep :=
  mapWithIndex (fun index functionId =>
    { id := "step-" ++ toString index
      functionId := functionId
      functionName :=
        let popped := ((splitOnDot functionId.data).getLast?).getD []
        if popped.isEmpty then functionId else String.mk popped
      status := "pending" }) pluginFunctionIds

/-- Embedding of notifyWorkflowStart (src/lib/workflow-progress.ts:65-78). -/
def notifyWorkflowStart (w : HostWindow) (workflowId workflowName : String)
    (steps : List WorkflowProgressStep) :
    List WorkflowProgressMessage × Option JsError :=
  sendProgressMessage w
    { type := "workflow-progress-start"
      workflowId := workflowId
      workflowName := some workflowName
      steps := some steps
      currentStepIndex := some 0
      status := some "running" }

/-- Embedding of notifyStepUpdate (src/lib/workflow-progress.ts:83-95). -/
def notifyStepUpdate (w : HostWindow) (workflowId : String)
    (steps : List WorkflowProgressStep) (currentStepIndex : Int) :
    List WorkflowProgressMessage × Option JsError :=
  sendProgressMessage w
    { type := "workflow-progress-update"
      workflowId := workflowId
      steps := some steps
      currentStepIndex := some currentStepIndex
      status := some "running" }

/-- Embedding of notifyWorkflowComplete
(src/lib/workflow-progress.ts:100-111). -/
def notifyWorkflowComplete (w : HostWindow) (workflowId : String)
    (steps : List WorkflowProgressStep) :
    List WorkflowProgressMessage × Option JsError :=
  sendProgressMessage w
    { type := "workflow-progress-complete"
      workflowId := workflowId
      steps := some steps
      currentStepIndex := some ((steps.length : Int) - 1)
      status := some "completed" }

/-- Embedding of notifyWorkflowError
(src/lib/workflow-progress.ts:116-128). -/
def notifyWorkflowError (w : HostWindow) (workflowId : String)
    (steps : List WorkflowProgressStep) (currentStepIndex : Int) :
    List WorkflowProgressMessage × Option JsError :=
  sendProgressMessage w
    { type := "workflow-progress-error"
      workflowId := workflowId
      steps := some steps
      currentStepIndex := some currentStepIndex
      status := some "error" }

/-- C1: sendProgressMessage is a fire-and-forget post with silent failure:
it never lets an exception escape (second component is always none, even
when the host call rejects), and when window.OSAutomotor is absent it
performs no host call at all. -/
theorem sendProgressMessage_fire_and_forget (w : HostWindow)
    (m : WorkflowProgressMessage) :
    (sendProgressMessage w m).2 = none ∧
    (w.OSAutomotor = none → sendProgressMessage w m = ([], none)) := by
  constructor
  · cases h : w.OSAutomotor with
    | none => simp [sendProgressMessage, h]
    | some send => cases hs : send m <;> simp [sendProgressMessage, h, hs]
  · intro h
    simp [sendProgressMessage, h]

/-- Witness for C1 at a host that rejects every call: the rejection is
swallowed. -/
theorem sendProgressMessage_fire_and_forget_witness :
    (sendProgressMessage
        (HostWindow.mk (some (fun _ => HostOutcome.rejected (JsError.mk "Error" "boom"))))
        (WorkflowProgressMessage.mk "workflow-progress-start" "wf1" none none none none)).2
      = none :=
  (sendProgressMessage_fire_and_forget
    (HostWindow.mk (some (fun _ => HostOutcome.rejected (JsError.mk "Error" "boom"))))
    (WorkflowProgressMessage.mk "workflow-progress-start" "wf1" none none none none)).1

/-- C7: each notifier helper posts exactly one message of the fixed shape
stated in the spec, for every workflowId, name, step list and index,
whenever the host hook is attached. -/
theorem notify_helpers_shape (w : HostWindow)
    (hw : w.OSAutomotor.isSome = true) (wid wname : String)
    (steps : List WorkflowProgressStep) (idx : Int) :
    (notifyWorkflowStart w wid wname steps).1 =
      [{ type := "workflow-progress-start", workflowId := wid,
         workflowName := some wname, steps := some steps,
         currentStepIndex := some 0, status := some "running" }] ∧
    (notifyStepUpdate w wid steps idx).1 =
      [{ type := "workflow-progress-update", workflowId := wid,
         steps := some steps, currentStepIndex := some idx,
         status := some "running" }] ∧
    (notifyWorkflowComplete w wid steps).1 =
      [{ type := "workflow-progress-complete", workflowId := wid,
         steps := some steps,
         currentStepIndex := some ((steps.length : Int) - 1),
         status := some "completed" }] ∧
    (notifyWorkflowError w wid steps idx).1 =
      [{ type := "workflow-progress-error", workflowId := wid,
         steps := some steps, currentStepIndex := some idx,
         status := some "error" }] :=
  ⟨sendProgressMessage_posts w hw _, sendProgressMessage_posts w hw _,
   sendProgressMessage_posts w hw _, sendProgressMessage_posts w hw _⟩

/-- Witness for C7 at a one-step list and an always-resolving host. -/
theorem notify_helpers_shape_witness :
    (notifyWorkflowComplete
        (HostWindow.mk (some (fun _ => HostOutcome.resolved true none))) "wf1"
        [{ id := "step-0", functionId := "pkg.fn", functionName := "fn",
           status := "pending" }]).1 =
      [{ type := "workflow-progress-complete", workflowId := "wf1",
         steps := some [{ id := "step-0", functionId := "pkg.fn",
                          functionName := "fn", status := "pending" }],
         currentStepIndex :=
           some ((([{ id := "step-0", functionId := "pkg.fn",
                      functionName := "fn",
                      status := "pending" }] : List WorkflowProgressStep).length : Int) - 1),
         status := some "completed" }] :=
  (notify_helpers_shape
    (HostWindow.mk (some (fun _ => HostOutcome.resolved true none))) rfl
    "wf1" "Workflow"
    [{ id := "step-0", functionId := "pkg.fn", functionName := "fn",
       status := "pending" }] 0).2.2.1

/-- Helper: splitOnDot never returns the empty list. -/
theorem splitOnDot_ne_nil (l : List Char) : splitOnDot l ≠ [] := by
  cases l with
  | nil => simp [splitOnDot]
  | cons c rest =>
    cases h : splitOnDot rest with
    | nil => simp [splitOnDot, h]
    | cons g gs =>
      by_cases hc : c = '.' <;> simp [splitOnDot, h, hc]

/-- Helper: the number of split groups is the dot count plus one. -/
theorem splitOnDot_length (l : List Char) :
    (splitOnDot l).length = l.count '.' + 1 := by
  induction l with
  | nil => simp [splitOnDot]
  | cons c rest ih =>
    cases h : splitOnDot rest with
    | nil => exact absurd h (splitOnDot_ne_nil rest)
    | cons g gs =>
      rw [h] at ih
      simp only [List.length_cons] at ih
      by_cases hc : c = '.' <;>
        simp [splitOnDot, h, hc, List.count_cons] <;> omega

/-- Helper: splitting a dot-free character list is the identity. -/
theorem splitOnDot_of_not_mem (l : List Char) (h : '.' ∉ l) :
    splitOnDot l = [l] := by
  induction l with
  | nil => rfl
  | cons c rest ih =>
    have h1 : '.' ∉ rest := fun hm => h (List.mem_cons_of_mem _ hm)
    have h2 : ¬(c = '.') := by
      intro hc
      exact h (by simp [hc])
    simp [splitOnDot, ih h1, h2]

/-- The substring after the last dot, stated independently of split:
skip to the last dot and return what follows; a dot-free list is returned
whole. -/
def suffixAfterLastDot : List Char → List Char
  | [] => []
  | c :: rest =>
    if '.' ∈ rest then suffixAfterLastDot rest
    else if c = '.' then rest
    else c :: rest

/-- Helper: on a dot-free list the suffix after the last dot is the whole
list. -/
theorem suffixAfterLastDot_of_not_mem (l : List Char) (h : '.' ∉ l) :
    suffixAfterLastDot l = l := by
  cases l with
  | nil => rfl
  | cons c rest =>
    have h1 : '.' ∉ rest := fun hm => h (List.mem_cons_of_mem _ hm)
    have h2 : ¬(c = '.') := by
      intro hc
      exact h (by simp [hc])
    simp [suffixAfterLastDot, h1, h2]

/-- Helper: getLast? ignores a leading element of a nonempty list. -/
theorem getLast?_cons_cons {α : Type} (a b : α) (l : List α) :
    (a :: b :: l).getLast? = (b :: l).getLast? := by
  simp [List.getLast?_cons_cons]

/-- Helper: the last split group is exactly the suffix after the last
dot. -/
theorem splitOnDot_getLast (l : List Char) :
    ((splitOnDot l).getLast?).getD [] = suffixAfterLastDot l := by
  induction l with
  | nil => rfl
  | cons c rest ih =>
    cases h : splitOnDot rest with
    | nil => exact absurd h (splitOnDot_ne_nil rest)
    | cons g gs =>
      rw [h] at ih
      by_cases hc : c = '.'
      · subst hc
        rw [show splitOnDot ('.' :: rest) = [] :: g :: gs by
              simp [splitOnDot, h]]
        rw [getLast?_cons_cons, ih]
        by_cases hm : '.' ∈ rest
        · simp [suffixAfterLastDot, hm]
        · simp [suffixAfterLastDot, hm, suffixAfterLastDot_of_not_mem rest hm]
      · rw [show splitOnDot (c :: rest) = (c :: g) :: gs by
              simp [splitOnDot, h, hc]]
        cases gs with
        | nil =>
          have hcount : rest.count '.' = 0 := by
            have hlen := splitOnDot_length rest
            rw [h] at hlen
            simpa using hlen
          have hm : '.' ∉ rest := by
            rwa [List.count_eq_zero] at hcount
          have hg : g = rest := by
            have hsp := splitOnDot_of_not_mem rest hm
            rw [h] at hsp
            simpa using hsp
          subst hg
          simp [suffixAfterLastDot, hm, hc]
        | cons g2 gs2 =>
          rw [getLast?_cons_cons]
          have hm : '.' ∈ rest := by
            by_contra hmn
            have hlen := splitOnDot_length rest
            rw [h, List.count_eq_zero.mpr hmn] at hlen
            simp at hlen
          rw [getLast?_cons_cons] at ih
          rw [ih]
          simp [suffixAfterLastDot, hm]

/-- Helper: mapWithIndexFrom preserves length. -/
theorem mapWithIndexFrom_length {α β : Type} (f : Nat → α → β) (start : Nat)
    (l : List α) : (mapWithIndexFrom f start l).length = l.length := by
  induction l generalizing start with
  | nil => rfl
  | cons a rest ih => simp [mapWithIndexFrom, ih]

/-- Helper: indexing into mapWithIndexFrom. -/
theorem mapWithIndexFrom_getElem? {α β : Type} (f : Nat → α → β)
    (start i : Nat) (l : List α) :
    (mapWithIndexFrom f start l)[i]? = (l[i]?).map (f (start + i)) := by
  induction l generalizing start i with
  | nil => simp [mapWithIndexFrom]
  | cons a rest ih =>
    cases i with
    | zero => simp [mapWithIndexFrom]
    | succ n =>
      rw [show start + (n + 1) = start + 1 + n by omega]
      simp [mapWithIndexFrom, ih]

/-- C8: parseWorkflowSteps preserves length and shape: the i-th step has
id "step-" followed by i, the i-th input functionId, status "pending",
and a functionName that is the substring after the last dot of the id,
falling back to the whole id when that substring is empty. -/
theorem parseWorkflowSteps_shape (ids : List String) :
    (parseWorkflowSteps ids).length = ids.length ∧
    ∀ (i : Nat) (fid : String), ids[i]? = some fid →
      (parseWorkflowSteps ids)[i]? = some
        { id := "step-" ++ toString i
          functionId := fid
          functionName :=
            if (suffixAfterLastDot fid.data).isEmpty then fid
            else String.mk (suffixAfterLastDot fid.data)
          status := "pending" } := by
  constructor
  · exact mapWithIndexFrom_length _ 0 ids
  · intro i fid hfid
    rw [parseWorkflowSteps, mapWithIndex, mapWithIndexFrom_getElem?, hfid,
      Nat.zero_add, ← splitOnDot_getLast fid.data]
    rfl

/-- Witness for C8 on a concrete id list: index 1 holds a dot-free id. -/
theorem parseWorkflowSteps_shape_witness :
    (parseWorkflowSteps ["pkg.fn", "plain"])[1]? = some
      { id := "step-" ++ toString 1
        functionId := "plain"
        functionName :=
          if (suffixAfterLastDot ("plain" : String).data).isEmpty then "plain"
          else String.mk (suffixAfterLastDot ("plain" : String).data)
        status := "pending" } :=
  (parseWorkflowSteps_shape ["pkg.fn", "plain"]).2 1 "plain" rfl

/-- Permission (proto): only the numeric permissionLevel is inspected by
the UI code; the proto enum is embedded as its numeric value. -/
structure Permission where
  permissionLevel : Nat

/-- The numeric value of the PermissionLevel UNSPECIFIED enum member. -/
def PermissionLevel.UNSPECIFIED : Nat := 0

/-- PluginFunction (proto), restricted to the fields the UI reads. -/
structure PluginFunction where
  functionId : String
  functionName : String
  description : String
  permissions : List Permission

/-- PluginPackage (proto), restricted to the fields the UI reads. -/
structure PluginPackage where
  packageId : String
  packageName : String
  packageVersion : String
  description : String
  verified : Bool
  internalPlugin : Bool
  deprecated : Bool
  functions : List PluginFunction

/-- WorkflowCode (proto), restricted to the fields the UI reads. -/
structure WorkflowCode where
  id : String
  code : String
  pluginFunctionIds : List String
  pluginPackages : List PluginPackage

/-- Workflow (proto), restricted to the fields the UI reads. -/
structure Workflow where
  id : String
  displayName : String
  workflowCode : List WorkflowCode

/-- FunctionInfo (src/components/workflow/WorkflowFunctionList.tsx:95-101). -/
structure FunctionInfo where
  functionId : String
  functionName : String
  description : String
  permissionLevel : Nat
  packageName : Option String := none

/-- Association-list lookup returning the first value whose key matches. -/
def lookupPair (fid : String) :
    List (String × (PluginFunction × PluginPackage)) →
    Option (PluginFunction × PluginPackage)
  | [] => none
  | (k, v) :: rest => if k = fid then some v else lookupPair fid rest

/-- All (functionId, (function, package)) pairs of a package list in
insertion order, the order in which the source populates its Map. -/
def functionPairs : List PluginPackage →
    List (String × (PluginFunction × PluginPackage))
  | [] => []
  | pkg :: rest =>
    pkg.functions.map (fun f => (f.functionId, (f, pkg))) ++ functionPairs rest

/-- Embedding of the functionMap built in extractFunctionInfo
(src/components/workflow/WorkflowFunctionList.tsx:114-122): Map.set
overwrites, so get returns the value of the last insertion, i.e. the
first match in the reversed insertion order. -/
def functionMapFind (packages : List PluginPackage) (functionId : String) :
    Option (PluginFunction × PluginPackage) :=
  lookupPair functionId (functionPairs packages).reverse

/-- Embedding of the permission reduce in extractFunctionInfo
(src/components/workflow/WorkflowFunctionList.tsx:128-132); the
JavaScript || 0 is the identity on the embedded numeric level. -/
def maxPermissionLevel (perms : List Permission) : Nat :=
  perms.foldl
    (fun mx p => if p.permissionLevel > mx then p.permissionLevel else mx) 0

/-- Embedding of functionId.replace of underscores by spaces. -/
def replaceUnderscores (s : String) : String :=
  String.map (fun c => if c = '_' then ' ' else c) s

/-- Embedding of extractFunctionInfo
(src/components/workflow/WorkflowFunctionList.tsx:106-150). -/
def extractFunctionInfo (workflow : Workflow) : List FunctionInfo :=
  match workflow.workflowCode.getLast? with
  | none => []
  | some latestCode =>
    latestCode.pluginFunctionIds.map fun functionId =>
      match functionMapFind latestCode.pluginPackages functionId with
      | some (func, pkg) =>
        { functionId := functionId
          functionName := func.functionName
          description := func.description
          permissionLevel := maxPermissionLevel func.permissions
          packageName := some pkg.packageName }
      | none =>
        { functionId := functionId
          functionName := replaceUnderscores functionId
          description := ""
          permissionLevel := PermissionLevel.UNSPECIFIED
          packageName := none }

/-- The maximum of a list of naturals, 0 for the empty list. -/
def listMax (l : List Nat) : Nat := l.foldr Nat.max 0

/-- Helper: listMax unfolds on cons. -/
theorem listMax_cons (x : Nat) (xs : List Nat) :
    listMax (x :: xs) = Nat.max x (listMax xs) := rfl

/-- Helper: folding max from the left computes the maximum. -/
theorem foldl_max_eq (l : List Nat) (a : Nat) :
    l.foldl Nat.max a = Nat.max a (listMax l) := by
  induction l generalizing a with
  | nil => simp [listMax]
  | cons x xs ih =>
    rw [List.foldl_cons, ih, listMax_cons]
    exact Nat.max_assoc a x (listMax xs)

/-- Helper: the source's reduce computes the maximum permission level. -/
theorem maxPermissionLevel_eq (perms : List Permission) :
    maxPermissionLevel perms =
      listMax (perms.map (fun p => p.permissionLevel)) := by
  have h1 : maxPermissionLevel perms =
      (perms.map (fun p => p.permissionLevel)).foldl Nat.max 0 := by
    rw [List.foldl_map]
    unfold maxPermissionLevel
    congr 1
    funext mx p
    by_cases h : p.permissionLevel > mx
    · simp [h, Nat.max_eq_right (Nat.le_of_lt h)]
    · simp [h, Nat.max_eq_left (Nat.le_of_not_lt h)]
  rw [h1, foldl_max_eq]
  exact Nat.max_eq_right (Nat.zero_le _)

/-- Helper: lookupPair misses exactly when no key matches. -/
theorem lookupPair_eq_none_iff (fid : String)
    (l : List (String × (PluginFunction × PluginPackage))) :
    lookupPair fid l = none ↔ ∀ kv ∈ l, kv.1 ≠ fid := by
  induction l with
  | nil => simp [lookupPair]
  | cons kv rest ih =>
    cases kv with
    | mk k v =>
      by_cases hk : k = fid
      · simp [lookupPair, hk]
      · simp [lookupPair, hk, ih]

/-- Helper: membership in the insertion pair list. -/
theorem mem_functionPairs (kv : String × (PluginFunction × PluginPackage))
    (packages : List PluginPackage) :
    kv ∈ functionPairs packages ↔
      ∃ pkg ∈ packages, ∃ f ∈ pkg.functions, kv = (f.functionId, (f, pkg)) := by
  induction packages with
  | nil => simp [functionPairs]
  | cons pkg rest ih =>
    simp only [functionPairs, List.mem_append, List.mem_map, ih,
      List.mem_cons]
    constructor
    · rintro (⟨f, hf, rfl⟩ | ⟨p, hp, f, hf, rfl⟩)
      · exact ⟨pkg, Or.inl rfl, f, hf, rfl⟩
      · exact ⟨p, Or.inr hp, f, hf, rfl⟩
    · rintro ⟨p, rfl | hp, f, hf, rfl⟩
      · exact Or.inl ⟨f, hf, rfl⟩
      · exact Or.inr ⟨p, hp, f, hf, rfl⟩

/-- Helper: functionMapFind misses exactly when no function of any listed
package carries the id. -/
theorem functionMapFind_eq_none_iff (packages : List PluginPackage)
    (fid : String) :
    functionMapFind packages fid = none ↔
      ∀ pkg ∈ packages, ∀ f ∈ pkg.functions, f.functionId ≠ fid := by
  rw [functionMapFind, lookupPair_eq_none_iff]
  constructor
  · intro h pkg hpkg f hf
    exact h (f.functionId, (f, pkg))
      (List.mem_reverse.mpr ((mem_functionPairs _ _).mpr ⟨pkg, hpkg, f, hf, rfl⟩))
  · intro h kv hkv
    obtain ⟨pkg, hpkg, f, hf, rfl⟩ :=
      (mem_functionPairs _ _).mp (List.mem_reverse.mp hkv)
    exact h pkg hpkg f hf

/-- C10: extractFunctionInfo resolves every listed function id of the
latest workflowCode entry: a found id yields the function's name,
description, package name and the maximum of its declared permission
levels (0 when it declares none); an unresolved id falls back to
permissionLevel UNSPECIFIED, an empty description and the id with
underscores replaced by spaces; the output is index-aligned with the id
list. -/
theorem extractFunctionInfo_resolution (wf : Workflow) (lc : WorkflowCode)
    (hlc : wf.workflowCode.getLast? = some lc) :
    (extractFunctionInfo wf).length = lc.pluginFunctionIds.length ∧
    ∀ (i : Nat) (fid : String), lc.pluginFunctionIds[i]? = some fid →
      (∀ func pkg,
         functionMapFind lc.pluginPackages fid = some (func, pkg) →
         (extractFunctionInfo wf)[i]? = some
           { functionId := fid
             functionName := func.functionName
             description := func.description
             permissionLevel :=
               listMax (func.permissions.map (fun p => p.permissionLevel))
             packageName := some pkg.packageName }) ∧
      ((∀ pkg ∈ lc.pluginPackages, ∀ func ∈ pkg.functions,
          func.functionId ≠ fid) →
         (extractFunctionInfo wf)[i]? = some
           { functionId := fid
             functionName := replaceUnderscores fid
             description := ""
             permissionLevel := PermissionLevel.UNSPECIFIED
             packageName := none }) := by
  constructor
  · simp [extractFunctionInfo, hlc]
  · intro i fid hfid
    constructor
    · intro func pkg hfind
      simp only [extractFunctionInfo, hlc, List.getElem?_map, hfid,
        Option.map_some', hfind, maxPermissionLevel_eq]
    · intro hmiss
      have hnone : functionMapFind lc.pluginPackages fid = none :=
        (functionMapFind_eq_none_iff lc.pluginPackages fid).mpr hmiss
      simp only [extractFunctionInfo, hlc, List.getElem?_map, hfid,
        Option.map_some', hnone]

/-- Witness for C10 on a concrete workflow: one resolvable id. -/
theorem extractFunctionInfo_resolution_witness :
    (extractFunctionInfo
      (Workflow.mk "w1" "Demo"
        [WorkflowCode.mk "c1" "code" ["pkg.fn"]
          [PluginPackage.mk "pid" "Pkg" "1.0" "" true false false
            [PluginFunction.mk "pkg.fn" "fn" "does things"
              [Permission.mk 2, Permission.mk 3]]]]))[0]? = some
      { functionId := "pkg.fn"
        functionName := "fn"
        description := "does things"
        permissionLevel :=
          listMax ([Permission.mk 2, Permission.mk 3].map
            (fun p => p.permissionLevel))
        packageName := some "Pkg" } :=
  ((extractFunctionInfo_resolution
      (Workflow.mk "w1" "Demo"
        [WorkflowCode.mk "c1" "code" ["pkg.fn"]
          [PluginPackage.mk "pid" "Pkg" "1.0" "" true false false
            [PluginFunction.mk "pkg.fn" "fn" "does things"
              [Permission.mk 2, Permission.mk 3]]]])
      (WorkflowCode.mk "c1" "code" ["pkg.fn"]
        [PluginPackage.mk "pid" "Pkg" "1.0" "" true false false
          [PluginFunction.mk "pkg.fn" "fn" "does things"
            [Permission.mk 2, Permission.mk 3]]]) rfl).2 0 "pkg.fn" rfl).1
    (PluginFunction.mk "pkg.fn" "fn" "does things"
      [Permission.mk 2, Permission.mk 3])
    (PluginPackage.mk "pid" "Pkg" "1.0" "" true false false
      [PluginFunction.mk "pkg.fn" "fn" "does things"
        [Permission.mk 2, Permission.mk 3]]) rfl

/-- The message notifyWorkflowStart hands to sendProgressMessage. -/
def startProgressMessage (workflowId workflowName : String)
    (steps : List WorkflowProgressStep) : WorkflowProgressMessage :=
  { type := "workflow-progress-start"
    workflowId := workflowId
    workflowName := some workflowName
    steps := some steps
    currentStepIndex := some 0
    status := some "running" }

/-- The message notifyWorkflowComplete hands to sendProgressMessage. -/
def completeProgressMessage (workflowId : String)
    (steps : List WorkflowProgressStep) : WorkflowProgressMessage :=
  { type := "workflow-progress-complete"
    workflowId := workflowId
    steps := some steps
    currentStepIndex := some ((steps.length : Int) - 1)
    status := some "completed" }

/-- The message notifyWorkflowError hands to sendProgressMessage. -/
def errorProgressMessage (workflowId : String)
    (steps : List WorkflowProgressStep) (currentStepIndex : Int) :
    WorkflowProgressMessage :=
  { type := "workflow-progress-error"
    workflowId := workflowId
    steps := some steps
    currentStepIndex := some currentStepIndex
    status := some "error" }

/-- Helper: notifyWorkflowStart posts exactly startProgressMessage. -/
theorem notifyWorkflowStart_eq (w : HostWindow) (wid wname : String)
    (steps : List WorkflowProgressStep) :
    notifyWorkflowStart w wid wname steps =
      sendProgressMessage w (startProgressMessage wid wname steps) := rfl

/-- Helper: notifyWorkflowComplete posts exactly completeProgressMessage. -/
theorem notifyWorkflowComplete_eq (w : HostWindow) (wid : String)
    (steps : List WorkflowProgressStep) :
    notifyWorkflowComplete w wid steps =
      sendProgressMessage w (completeProgressMessage wid steps) := rfl

/-- Helper: notifyWorkflowError posts exactly errorProgressMessage. -/
theorem notifyWorkflowError_eq (w : HostWindow) (wid : String)
    (steps : List WorkflowProgressStep) (idx : Int) :
    notifyWorkflowError w wid steps idx =
      sendProgressMessage w (errorProgressMessage wid steps idx) := rfl

/-- Payload of a useWorkflowRun event: the source stores arbitrary
payloads; the code in scope only ever appends stage/status objects, the
RPC response, or an error. -/
inductive RunPayload (Res : Type) where
  | stageStatus (stage stat : String)
  | stageOnly (stage : String)
  | response (r : Res)
  | err (e : JsError)

/-- RunEvent (src/pages/workflows/useWorkflowRun.ts:147-154) without the
wall-clock t field, which no property mentions. -/
structure RunEvent (Res : Type) where
  kind : String
  payload : RunPayload Res

/-- The React state of useWorkflowRun
(src/pages/workflows/useWorkflowRun.ts:197-199). -/
structure RunState (Res : Type) where
  running : Bool
  events : List (RunEvent Res)
  runRes : Option Res

/-- Primitive effects performed by the runById body, in program order:
state setters, functional event append, progress notifications (which do
not touch React state) and the RPC call, recording its abort signal. -/
inductive RunAction (Res : Type) where
  | setEvents (l : List (RunEvent Res))
  | setRunRes (r : Option Res)
  | setRunning (b : Bool)
  | appendEvent (e : RunEvent Res)
  | notify (m : WorkflowProgressMessage)
  | rpcCall (method : String) (args : List String) (abortSignal : Option Nat)

/-- Sequential interpretation of one action on the hook state. -/
def applyRunAction {Res : Type} (s : RunState Res) :
    RunAction Res → RunState Res
  | RunAction.setEvents l => { s with events := l }
  | RunAction.setRunRes r => { s with runRes := r }
  | RunAction.setRunning b => { s with running := b }
  | RunAction.appendEvent e => { s with events := s.events ++ [e] }
  | RunAction.notify _ => s
  | RunAction.rpcCall _ _ _ => s

/-- Embedding of getPluginFunctionIds
(src/pages/workflows/useWorkflowRun.ts:181-187). -/
def getPluginFunctionIds : Option Workflow → List String
  | none => []
  | some w =>
    match w.workflowCode.getLast? with
    | none => []
    | some latestCode => latestCode.pluginFunctionIds

/-- Embedding of workflow?.displayName || "Workflow": the empty display
name is falsy. -/
def workflowDisplayName : Option Workflow → String
  | none => "Workflow"
  | some w => if w.displayName.isEmpty then "Workflow" else w.displayName

/-- Embedding of the step remap at run start
(src/pages/workflows/useWorkflowRun.ts:225-229): step 0 becomes running
with a start timestamp, the rest pending. -/
def markStartSteps (now : Nat) (steps : List WorkflowProgressStep) :
    List WorkflowProgressStep :=
  mapWithIndex (fun index st =>
    { st with
      status := if index = 0 then "running" else "pending"
      startedAt := if index = 0 then some now else none }) steps

/-- Embedding of the step remap on success
(src/pages/workflows/useWorkflowRun.ts:247-251). -/
def markCompletedSteps (now : Nat) (steps : List WorkflowProgressStep) :
    List WorkflowProgressStep :=
  steps.map (fun st =>
    { st with status := "completed", completedAt := some now })

/-- Embedding of the in-place status mutation on error
(src/pages/workflows/useWorkflowRun.ts:261). -/
def markErrorAt (steps : List WorkflowProgressStep) (i : Nat) :
    List WorkflowProgressStep :=
  mapWithIndex
    (fun j st => if j = i then { st with status := "error" } else st) steps

/-- The steps value runById works with after its start remap.  The source
remaps only when the parsed list is nonempty; on the empty list the remap
is the identity, so the two agree. -/
def runStepsOf (now : Nat) (workflow : Option Workflow) :
    List WorkflowProgressStep :=
  markStartSteps now (parseWorkflowSteps (getPluginFunctionIds workflow))

/-- The progress-start notification of runById
(src/pages/workflows/useWorkflowRun.ts:224-231), guarded by a nonempty
step list. -/
def startNotifyActions {Res : Type} (now : Nat) (workflowId : String)
    (workflow : Option Workflow) : List (RunAction Res) :=
  if 0 < (runStepsOf now workflow).length then
    [RunAction.notify
      (startProgressMessage workflowId (workflowDisplayName workflow)
        (runStepsOf now workflow))]
  else []

/-- The actions runById performs after the awaited runWorkflow call
settles: the then-branch on success
(src/pages/workflows/useWorkflowRun.ts:241-253), the catch-branch on
failure (254-268). -/
def rpcOutcomeActions {Res : Type} (now : Nat) (workflowId : String)
    (workflow : Option Workflow) : Except JsError Res → List (RunAction Res)
  | Except.ok res =>
    RunAction.setRunRes (some res) ::
    RunAction.appendEvent ⟨"message", RunPayload.response res⟩ ::
    RunAction.appendEvent ⟨"done", RunPayload.stageOnly "run"⟩ ::
    (if 0 < (runStepsOf now workflow).length then
      [RunAction.notify
        (completeProgressMessage workflowId
          (markCompletedSteps now (runStepsOf now workflow)))]
     else [])
  | Except.error e =>
    RunAction.appendEvent ⟨"error", RunPayload.err e⟩ ::
    (if 0 < (runStepsOf now workflow).length then
      [RunAction.notify
        (errorProgressMessage workflowId
          (match (runStepsOf now workflow).findIdx?
              (fun st => st.status == "running") with
           | some i => markErrorAt (runStepsOf now workflow) i
           | none => runStepsOf now workflow)
          (match (runStepsOf now workflow).findIdx?
              (fun st => st.status == "running") with
           | some i => (i : Int)
           | none => 0))]
     else [])

/-- Trace of one runById invocation
(src/pages/workflows/useWorkflowRun.ts:205-274): the guard returns at
once while running; otherwise the state is cleared, running is set, the
start is notified and logged, the RPC call is issued without an abort
signal, its outcome handled, and running is reset in the finally block. -/
def runByIdTrace {Res : Type} (now : Nat) (s : RunState Res)
    (workflowId : String) (workflowCodeId : Option String)
    (workflow : Option Workflow) (rpc : Except JsError Res) :
    List (RunAction Res) :=
  if s.running then []
  else
    [RunAction.setEvents [], RunAction.setRunRes none,
     RunAction.setRunning true] ++
    startNotifyActions now workflowId workflow ++
    (RunAction.appendEvent ⟨"message", RunPayload.stageStatus "run" "start"⟩ ::
     RunAction.rpcCall "runWorkflow" [workflowId, workflowCodeId.getD ""] none ::
     rpcOutcomeActions now workflowId workflow rpc) ++
    [RunAction.setRunning false]

/-- The hook state after one runById invocation. -/
def runRunById {Res : Type} (now : Nat) (s : RunState Res)
    (workflowId : String) (workflowCodeId : Option String)
    (workflow : Option Workflow) (rpc : Except JsError Res) : RunState Res :=
  (runByIdTrace now s workflowId workflowCodeId workflow rpc).foldl
    applyRunAction s

/-- C3: runById is a thin state machine over UI events: while running it
changes nothing; otherwise it clears the log, sets running, logs the
run/start message first, and ends not running with the log closed by a
done event on RPC success or an error event on RPC failure. -/
theorem runById_state_machine {Res : Type} (now : Nat) (s : RunState Res)
    (wid : String) (wcid : Option String) (wf : Option Workflow)
    (rpc : Except JsError Res) :
    (s.running = true → runByIdTrace now s wid wcid wf rpc = [] ∧
       runRunById now s wid wcid wf rpc = s) ∧
    (s.running = false →
       ((runByIdTrace now s wid wcid wf rpc).take 3).foldl applyRunAction s =
         { s with events := [], runRes := none, running := true } ∧
       (runRunById now s wid wcid wf rpc).running = false ∧
       (∀ res, rpc = Except.ok res →
          (runRunById now s wid wcid wf rpc).events =
            [⟨"message", RunPayload.stageStatus "run" "start"⟩,
             ⟨"message", RunPayload.response res⟩,
             ⟨"done", RunPayload.stageOnly "run"⟩]) ∧
       (∀ e, rpc = Except.error e →
          (runRunById now s wid wcid wf rpc).events =
            [⟨"message", RunPayload.stageStatus "run" "start"⟩,
             ⟨"error", RunPayload.err e⟩])) := by
  constructor
  · intro h
    constructor
    · simp [runByIdTrace, h]
    · simp [runRunById, runByIdTrace, h]
  · intro h
    by_cases hn : 0 < (runStepsOf now wf).length
    · refine ⟨?_, ?_, ?_, ?_⟩
      · simp [runByIdTrace, h, startNotifyActions, hn, List.take,
          applyRunAction]
      · cases rpc <;>
          simp [runRunById, runByIdTrace, h, startNotifyActions,
            rpcOutcomeActions, hn, applyRunAction]
      · rintro res rfl
        simp [runRunById, runByIdTrace, h, startNotifyActions,
          rpcOutcomeActions, hn, applyRunAction]
      · rintro e rfl
        simp [runRunById, runByIdTrace, h, startNotifyActions,
          rpcOutcomeActions, hn, applyRunAction]
    · refine ⟨?_, ?_, ?_, ?_⟩
      · simp [runByIdTrace, h, startNotifyActions, hn, List.take,
          applyRunAction]
      · cases rpc <;>
          simp [runRunById, runByIdTrace, h, startNotifyActions,
            rpcOutcomeActions, hn, applyRunAction]
      · rintro res rfl
        simp [runRunById, runByIdTrace, h, startNotifyActions,
          rpcOutcomeActions, hn, applyRunAction]
      · rintro e rfl
        simp [runRunById, runByIdTrace, h, startNotifyActions,
          rpcOutcomeActions, hn, applyRunAction]

/-- Witness for C3 at an idle state and a successful RPC. -/
theorem runById_state_machine_witness :
    (runRunById 0 (RunState.mk false [] none : RunState Nat) "w1" none none
      (Except.ok 7)).events =
      [⟨"message", RunPayload.stageStatus "run" "start"⟩,
       ⟨"message", RunPayload.response 7⟩,
       ⟨"done", RunPayload.stageOnly "run"⟩] :=
  ((runById_state_machine 0 (RunState.mk false [] none : RunState Nat) "w1"
      none none (Except.ok 7)).2 rfl).2.2.1 7 rfl

/-- Payload of a useWorkflowGeneration event appended by start: a received
stream message, the done stage marker, or an error. -/
inductive GenPayload (Res : Type) where
  | response (r : Res)
  | stageOnly (stage : String)
  | err (e : JsError)

/-- GenerationEvent (useWorkflowGeneration:19-26) without the wall-clock t
field, which no property mentions. -/
structure GenEvent (Res : Type) where
  kind : String
  payload : GenPayload Res

/-- The React state of useWorkflowGeneration (useWorkflowGeneration:108-114).
Res is the generation response type, RRes the run response type; the abort
controller reference stores the identifier of the current controller. -/
structure GenState (Res RRes : Type) where
  streaming : Bool
  events : List (GenEvent Res)
  latest : Option Res
  runRes : Option RRes
  abortRef : Option Nat

/-- Primitive effects performed by the start body, in program order. -/
inductive GenAction (Res RRes : Type) where
  | setStreaming (b : Bool)
  | setEvents (l : List (GenEvent Res))
  | setLatest (o : Option Res)
  | setRunRes (o : Option RRes)
  | setAbortRef (o : Option Nat)
  | appendEvent (e : GenEvent Res)
  | rpcCall (method : String) (args : List String) (abortSignal : Option Nat)

/-- Sequential interpretation of one action on the hook state. -/
def applyGenAction {Res RRes : Type} (s : GenState Res RRes) :
    GenAction Res RRes → GenState Res RRes
  | GenAction.setStreaming b => { s with streaming := b }
  | GenAction.setEvents l => { s with events := l }
  | GenAction.setLatest o => { s with latest := o }
  | GenAction.setRunRes o => { s with runRes := o }
  | GenAction.setAbortRef o => { s with abortRef := o }
  | GenAction.appendEvent e => { s with events := s.events ++ [e] }
  | GenAction.rpcCall _ _ _ => s

/-- How one generateWorkflow stream iteration run ends: normal completion
of the iterator, or a throw.  An abort by the controller surfaces as a
thrown error whose name is AbortError. -/
inductive StreamEnd where
  | completed
  | failed (e : JsError)

/-- One observed run of the generateWorkflow stream: the messages
delivered before the end, and the way it ended. -/
structure StreamRun (Res : Type) where
  msgs : List Res
  ending : StreamEnd

/-- Per-message actions of the for-await body
(useWorkflowGeneration:130-136): store the message as latest and append
it to the log. -/
def msgActions {Res RRes : Type} : List Res → List (GenAction Res RRes)
  | [] => []
  | m :: rest =>
    GenAction.setLatest (some m) ::
    GenAction.appendEvent ⟨"message", GenPayload.response m⟩ ::
    msgActions rest

/-- Actions after the stream ends (useWorkflowGeneration:137-140): a done
event on completion, nothing when the thrown error is an AbortError, an
error event otherwise. -/
def endingActions {Res RRes : Type} : StreamEnd → List (GenAction Res RRes)
  | StreamEnd.completed =>
    [GenAction.appendEvent ⟨"done", GenPayload.stageOnly "generate"⟩]
  | StreamEnd.failed e =>
    if e.name = "AbortError" then []
    else [GenAction.appendEvent ⟨"error", GenPayload.err e⟩]

/-- Embedding of the !prompt.trim() blank test of the start guard:
trimming whitespace from both ends leaves the empty string exactly when
every character of the prompt is whitespace. -/
def promptIsBlank (prompt : String) : Bool :=
  prompt.data.all (fun c => c.isWhitespace)

/-- Trace of one start(prompt) invocation (useWorkflowGeneration:120-147):
the guard returns at once on a blank prompt or while streaming; otherwise
the state is cleared, streaming set, a fresh controller stored, the
stream opened with that controller's signal, each message handled, the
ending handled, and the finally block resets streaming and clears the
controller reference. -/
def startTrace {Res RRes : Type} (s : GenState Res RRes) (prompt : String)
    (ctrl : Nat) (stream : StreamRun Res) : List (GenAction Res RRes) :=
  if promptIsBlank prompt || s.streaming then []
  else
    [GenAction.setEvents [], GenAction.setRunRes none,
     GenAction.setLatest none, GenAction.setStreaming true,
     GenAction.setAbortRef (some ctrl)] ++
    (GenAction.rpcCall "generateWorkflow" [prompt] (some ctrl) ::
     msgActions stream.msgs ++ endingActions stream.ending) ++
    [GenAction.setStreaming false, GenAction.setAbortRef none]

/-- The hook state after one start(prompt) invocation. -/
def runStart {Res RRes : Type} (s : GenState Res RRes) (prompt : String)
    (ctrl : Nat) (stream : StreamRun Res) : GenState Res RRes :=
  (startTrace s prompt ctrl stream).foldl applyGenAction s

/-- Embedding of stop (useWorkflowGeneration:149-151): it aborts the
controller currently stored in abortRef, if any; the result names the
aborted controller. -/
def stopTarget {Res RRes : Type} (s : GenState Res RRes) : Option Nat :=
  s.abortRef

/-- Actions that leave streaming and abortRef untouched. -/
def flagSafe {Res RRes : Type} : GenAction Res RRes → Bool
  | GenAction.setStreaming _ => false
  | GenAction.setAbortRef _ => false
  | _ => true

/-- Helper: a flag-safe action preserves streaming and abortRef. -/
theorem applyGenAction_flagSafe {Res RRes : Type} (s : GenState Res RRes)
    (a : GenAction Res RRes) (h : flagSafe a = true) :
    (applyGenAction s a).streaming = s.streaming ∧
    (applyGenAction s a).abortRef = s.abortRef := by
  cases a <;> simp [applyGenAction, flagSafe] at h ⊢

/-- Helper: folding flag-safe actions preserves streaming and abortRef. -/
theorem foldl_flagSafe {Res RRes : Type} (acts : List (GenAction Res RRes))
    (h : ∀ a ∈ acts, flagSafe a = true) (s : GenState Res RRes) :
    (acts.foldl applyGenAction s).streaming = s.streaming ∧
    (acts.foldl applyGenAction s).abortRef = s.abortRef := by
  induction acts generalizing s with
  | nil => exact ⟨rfl, rfl⟩
  | cons a rest ih =>
    have ha := applyGenAction_flagSafe s a (h a (List.mem_cons_self a rest))
    have hrest := ih (fun b hb => h b (List.mem_cons_of_mem a hb))
      (applyGenAction s a)
    rw [List.foldl_cons]
    exact ⟨hrest.1.trans ha.1, hrest.2.trans ha.2⟩

/-- Helper: the per-message actions are flag-safe. -/
theorem msgActions_flagSafe {Res RRes : Type} (msgs : List Res) :
    ∀ a ∈ (msgActions msgs : List (GenAction Res RRes)), flagSafe a = true := by
  induction msgs with
  | nil => simp [msgActions]
  | cons m rest ih =>
    intro a ha
    simp only [msgActions, List.mem_cons] at ha
    rcases ha with rfl | rfl | ha
    · rfl
    · rfl
    · exact ih a ha

/-- Helper: the ending actions are flag-safe. -/
theorem endingActions_flagSafe {Res RRes : Type} (ending : StreamEnd) :
    ∀ a ∈ (endingActions ending : List (GenAction Res RRes)),
      flagSafe a = true := by
  cases ending with
  | completed => simp [endingActions, flagSafe]
  | failed e =>
    by_cases hn : e.name = "AbortError" <;>
      simp [endingActions, hn, flagSafe]

/-- Helper: events through the per-message actions accumulate one message
event per received message. -/
theorem msgActions_events {Res RRes : Type} (msgs : List Res)
    (s : GenState Res RRes) :
    ((msgActions msgs : List (GenAction Res RRes)).foldl applyGenAction
        s).events =
      s.events ++ msgs.map (fun m => ⟨"message", GenPayload.response m⟩) := by
  induction msgs generalizing s with
  | nil => simp [msgActions]
  | cons m rest ih =>
    simp [msgActions, applyGenAction, ih]

/-- C2: at most one cancellable generation stream at any time: start is a
no-op on a blank prompt or while streaming; after the stream ends for any
reason streaming is false and the stored controller is cleared; and at
every point between storing the fresh controller and the finally block,
stop aborts exactly that controller while streaming is true. -/
theorem start_single_stream {Res RRes : Type} (s : GenState Res RRes)
    (prompt : String) (ctrl : Nat) (stream : StreamRun Res) :
    ((promptIsBlank prompt || s.streaming) = true →
       startTrace s prompt ctrl stream = [] ∧
       runStart s prompt ctrl stream = s) ∧
    ((promptIsBlank prompt || s.streaming) = false →
       (runStart s prompt ctrl stream).streaming = false ∧
       (runStart s prompt ctrl stream).abortRef = none ∧
       (∀ k, 5 ≤ k → k + 2 ≤ (startTrace s prompt ctrl stream).length →
          (((startTrace s prompt ctrl stream).take k).foldl applyGenAction
              s).streaming = true ∧
          stopTarget (((startTrace s prompt ctrl stream).take k).foldl
              applyGenAction s) = some ctrl)) := by
  constructor
  · intro hguard
    constructor
    · simp [startTrace, hguard]
    · simp [runStart, startTrace, hguard]
  · intro hguard
    have htr : startTrace s prompt ctrl stream =
        ([GenAction.setEvents [], GenAction.setRunRes none,
          GenAction.setLatest none, GenAction.setStreaming true,
          GenAction.setAbortRef (some ctrl)] : List (GenAction Res RRes)) ++
        ((GenAction.rpcCall "generateWorkflow" [prompt] (some ctrl) ::
          msgActions stream.msgs ++ endingActions stream.ending) ++
         [GenAction.setStreaming false, GenAction.setAbortRef none]) := by
      simp [startTrace, hguard]
    refine ⟨?_, ?_, ?_⟩
    · rw [runStart, htr]
      simp [List.foldl_append, applyGenAction]
    · rw [runStart, htr]
      simp [List.foldl_append, applyGenAction]
    · intro k hk5 hklen
      rw [htr] at hklen ⊢
      have hmidlen : k - 5 ≤
          ((GenAction.rpcCall "generateWorkflow" [prompt] (some ctrl) ::
            msgActions stream.msgs ++ endingActions stream.ending :
              List (GenAction Res RRes))).length := by
        simp only [List.length_append, List.length_cons, List.length_nil]
          at hklen ⊢
        omega
      rw [List.take_append_eq_append_take]
      rw [List.take_of_length_le (by simp; omega)]
      have hrest : (((GenAction.rpcCall "generateWorkflow" [prompt]
            (some ctrl) ::
            msgActions stream.msgs ++ endingActions stream.ending) ++
           [GenAction.setStreaming false, GenAction.setAbortRef none] :
             List (GenAction Res RRes))).take
          (k - ([GenAction.setEvents [], GenAction.setRunRes none,
            GenAction.setLatest none, GenAction.setStreaming true,
            GenAction.setAbortRef (some ctrl)] :
              List (GenAction Res RRes)).length) =
          ((GenAction.rpcCall "generateWorkflow" [prompt] (some ctrl) ::
            msgActions stream.msgs ++ endingActions stream.ending :
              List (GenAction Res RRes))).take (k - 5) := by
        simp only [List.length_cons, List.length_nil]
        exact List.take_append_of_le_length hmidlen
      rw [hrest]
      have hsafe : ∀ a ∈ ((GenAction.rpcCall "generateWorkflow" [prompt]
            (some ctrl) ::
            msgActions stream.msgs ++ endingActions stream.ending :
              List (GenAction Res RRes))).take (k - 5),
          flagSafe a = true := by
        intro a ha
        have ha2 := List.take_subset _ _ ha
        simp only [List.mem_cons, List.mem_append] at ha2
        rcases ha2 with (rfl | hm) | he
        · rfl
        · exact msgActions_flagSafe stream.msgs a hm
        · exact endingActions_flagSafe stream.ending a he
      have hprefold :
          ([GenAction.setEvents [], GenAction.setRunRes none,
            GenAction.setLatest none, GenAction.setStreaming true,
            GenAction.setAbortRef (some ctrl)] :
              List (GenAction Res RRes)).foldl applyGenAction s =
          { s with events := [], runRes := none, latest := none,
                   streaming := true, abortRef := some ctrl } := rfl
      have hfold := foldl_flagSafe _ hsafe
        { s with events := [], runRes := none, latest := none,
                 streaming := true, abortRef := some ctrl }
      rw [List.foldl_append, hprefold]
      exact ⟨hfold.1, hfold.2⟩

/-- Witness for C2 at an idle state, a nonblank prompt and a two-message
completed stream. -/
theorem start_single_stream_witness :
    (runStart (GenState.mk false [] none none none : GenState Nat Nat)
      "make a workflow" 42 (StreamRun.mk [1, 2] StreamEnd.completed)).abortRef
      = none :=
  ((start_single_stream (GenState.mk false [] none none none : GenState Nat Nat)
      "make a workflow" 42 (StreamRun.mk [1, 2] StreamEnd.completed)).2
    rfl).2.1

/-- C9: aborting a generation stream is silent at the public interface:
when the stream throws an AbortError after some messages, no error and no
done event is appended, the log holds exactly the received messages, and
the finally block still resets streaming and clears the controller. -/
theorem abort_is_silent {Res RRes : Type} (s : GenState Res RRes)
    (prompt : String) (ctrl : Nat) (msgs : List Res) (e : JsError)
    (hactive : (promptIsBlank prompt || s.streaming) = false)
    (habort : e.name = "AbortError") :
    (runStart s prompt ctrl (StreamRun.mk msgs (StreamEnd.failed e))).events =
      msgs.map (fun m => ⟨"message", GenPayload.response m⟩) ∧
    (∀ ev ∈ (runStart s prompt ctrl
        (StreamRun.mk msgs (StreamEnd.failed e))).events,
       ev.kind = "message") ∧
    (runStart s prompt ctrl (StreamRun.mk msgs (StreamEnd.failed e))).streaming
      = false ∧
    (runStart s prompt ctrl (StreamRun.mk msgs (StreamEnd.failed e))).abortRef
      = none := by
  have htr : startTrace s prompt ctrl (StreamRun.mk msgs (StreamEnd.failed e)) =
      ([GenAction.setEvents [], GenAction.setRunRes none,
        GenAction.setLatest none, GenAction.setStreaming true,
        GenAction.setAbortRef (some ctrl),
        GenAction.rpcCall "generateWorkflow" [prompt] (some ctrl)] :
          List (GenAction Res RRes)) ++
      msgActions msgs ++
      [GenAction.setStreaming false, GenAction.setAbortRef none] := by
    simp [startTrace, hactive, endingActions, habort]
  have hev : (runStart s prompt ctrl
      (StreamRun.mk msgs (StreamEnd.failed e))).events =
      msgs.map (fun m => ⟨"message", GenPayload.response m⟩) := by
    rw [runStart, htr, List.foldl_append, List.foldl_append]
    simp [applyGenAction, msgActions_events]
  refine ⟨hev, ?_, ?_, ?_⟩
  · intro ev hev2
    rw [hev] at hev2
    obtain ⟨m, _, rfl⟩ := List.mem_map.mp hev2
    rfl
  · rw [runStart, htr, List.foldl_append, List.foldl_append]
    simp [applyGenAction]
  · rw [runStart, htr, List.foldl_append, List.foldl_append]
    simp [applyGenAction]

/-- Witness for C9: an abort after one received message leaves only that
message event. -/
theorem abort_is_silent_witness :
    (runStart (GenState.mk false [] none none none : GenState Nat Nat)
      "make a workflow" 42
      (StreamRun.mk [5] (StreamEnd.failed (JsError.mk "AbortError" "")))).events
      = [5].map (fun m => ⟨"message", GenPayload.response m⟩) :=
  (abort_is_silent (GenState.mk false [] none none none : GenState Nat Nat)
    "make a workflow" 42 [5] (JsError.mk "AbortError" "") rfl rfl).1

/-- Helper: the per-message actions contain no RPC call. -/
theorem rpcCall_not_mem_msgActions {Res RRes : Type} (msgs : List Res)
    (m : String) (args : List String) (sig : Option Nat) :
    (GenAction.rpcCall m args sig : GenAction Res RRes) ∉ msgActions msgs := by
  induction msgs with
  | nil => simp [msgActions]
  | cons x rest ih => simp [msgActions, ih]

/-- Helper: the ending actions contain no RPC call. -/
theorem rpcCall_not_mem_endingActions {Res RRes : Type} (ending : StreamEnd)
    (m : String) (args : List String) (sig : Option Nat) :
    (GenAction.rpcCall m args sig : GenAction Res RRes) ∉
      endingActions ending := by
  cases ending with
  | completed => simp [endingActions]
  | failed e =>
    by_cases hn : e.name = "AbortError" <;> simp [endingActions, hn]

/-- C5: no concurrency coordination beyond the single cancellable
generation stream: every RPC call issued by runById carries no abort
signal, and the only RPC call a start invocation issues is the
generateWorkflow stream, opened with the signal of the freshly stored
controller. -/
theorem only_generate_is_cancellable {Res RRes : Type} (now : Nat)
    (s : RunState Res) (wid : String) (wcid : Option String)
    (wf : Option Workflow) (rpc : Except JsError Res)
    (g : GenState Res RRes) (prompt : String) (ctrl : Nat)
    (stream : StreamRun Res) :
    (∀ m args sig, RunAction.rpcCall m args sig ∈
        runByIdTrace now s wid wcid wf rpc →
      m = "runWorkflow" ∧ sig = none) ∧
    (∀ m args sig, GenAction.rpcCall m args sig ∈
        startTrace g prompt ctrl stream →
      m = "generateWorkflow" ∧ sig = some ctrl) := by
  constructor
  · intro m args sig hmem
    by_cases hr : s.running
    · simp [runByIdTrace, hr] at hmem
    · by_cases hn : 0 < (runStepsOf now wf).length <;>
        cases rpc <;>
          simp [runByIdTrace, hr, startNotifyActions, rpcOutcomeActions,
            hn] at hmem <;>
        exact ⟨hmem.1, hmem.2.2⟩
  · intro m args sig hmem
    by_cases hg : (promptIsBlank prompt || g.streaming) = true
    · simp [startTrace, hg] at hmem
    · have hg2 : (promptIsBlank prompt || g.streaming) = false := by
        revert hg
        cases promptIsBlank prompt || g.streaming <;> simp
      simp [startTrace, hg2, rpcCall_not_mem_msgActions,
        rpcCall_not_mem_endingActions] at hmem
      exact ⟨hmem.1, hmem.2.2⟩

/-- Witness for C5: the generateWorkflow call in a concrete start trace
carries the fresh controller's signal. -/
theorem only_generate_is_cancellable_witness :
    ("generateWorkflow" : String) = "generateWorkflow" ∧
      (some 1 : Option Nat) = some 1 :=
  (only_generate_is_cancellable 0 (RunState.mk false [] none : RunState Nat)
    "w1" none none (Except.ok 7)
    (GenState.mk false [] none none none : GenState Nat Nat) "p" 1
    (StreamRun.mk [] StreamEnd.completed)).2 "generateWorkflow" ["p"] (some 1)
    (by simp [startTrace, show promptIsBlank "p" = false from rfl,
      msgActions, endingActions])

/-- The React state of PluginsPanel that fetchPlugins touches
(src/pages/generate/PluginsPanel.tsx:20-22); the search query state is
untouched by the fetch and omitted. -/
structure PluginsState where
  plugins : List PluginPackage
  loading : Bool
  error : Option String

/-- Embedding of fetchPlugins (src/pages/generate/PluginsPanel.tsx:26-38):
try sets loading and clears the error, then awaits listPlugins and stores
its plugins; catch logs to the console and sets the error message; finally
clears loading.  The second component collects the console error lines.
The catch swallows the failure, so the embedding is a total function into
a final state: nothing escapes to the caller. -/
def fetchPlugins (s : PluginsState) (fetchErrorMsg : String)
    (rpc : Except JsError (List PluginPackage)) :
    PluginsState × List String :=
  match rpc with
  | Except.ok plugins =>
    ({ s with loading := false, error := none, plugins := plugins }, [])
  | Except.error e =>
    ({ s with loading := false, error := some fetchErrorMsg },
     ["Failed to fetch plugins: " ++ e.message])

/-- C4: every RPC failure is mapped to UI state rather than propagated: a
failed listPlugins is logged, sets the error message, clears loading and
leaves the loaded plugins untouched; a failed runWorkflow closes the run
log with an error event; a failed generation stream (other than an abort)
closes the generation log with an error event. -/
theorem rpc_failures_mapped {Res Res2 RRes : Type} (s : PluginsState)
    (msg : String) (e : JsError) (now : Nat) (rs : RunState Res)
    (wid : String) (wcid : Option String) (wf : Option Workflow)
    (g : GenState Res2 RRes) (prompt : String) (ctrl : Nat)
    (msgs : List Res2)
    (hrun : rs.running = false)
    (hgen : (promptIsBlank prompt || g.streaming) = false)
    (hname : ¬e.name = "AbortError") :
    (fetchPlugins s msg (Except.error e)).1.plugins = s.plugins ∧
    (fetchPlugins s msg (Except.error e)).1.error = some msg ∧
    (fetchPlugins s msg (Except.error e)).1.loading = false ∧
    (fetchPlugins s msg (Except.error e)).2 ≠ [] ∧
    (runRunById now rs wid wcid wf (Except.error e)).events.getLast? =
      some ⟨"error", RunPayload.err e⟩ ∧
    (runStart g prompt ctrl
        (StreamRun.mk msgs (StreamEnd.failed e))).events.getLast? =
      some ⟨"error", GenPayload.err e⟩ := by
  refine ⟨rfl, rfl, rfl, by simp [fetchPlugins], ?_, ?_⟩
  · by_cases hn : 0 < (runStepsOf now wf).length <;>
      simp [runRunById, runByIdTrace, hrun, startNotifyActions,
        rpcOutcomeActions, hn, applyRunAction]
  · have htr : startTrace g prompt ctrl
        (StreamRun.mk msgs (StreamEnd.failed e)) =
        ([GenAction.setEvents [], GenAction.setRunRes none,
          GenAction.setLatest none, GenAction.setStreaming true,
          GenAction.setAbortRef (some ctrl),
          GenAction.rpcCall "generateWorkflow" [prompt] (some ctrl)] :
            List (GenAction Res2 RRes)) ++
        msgActions msgs ++
        ([GenAction.appendEvent ⟨"error", GenPayload.err e⟩,
          GenAction.setStreaming false, GenAction.setAbortRef none]) := by
      simp [startTrace, hgen, endingActions, hname]
    rw [runStart, htr, List.foldl_append, List.foldl_append]
    simp [applyGenAction, msgActions_events]

/-- Witness for C4 at a concrete failed RPC. -/
theorem rpc_failures_mapped_witness :
    (fetchPlugins (PluginsState.mk [] true none) "plugins.fetchError"
        (Except.error (JsError.mk "ConnectError" "boom"))).1.error =
      some "plugins.fetchError" :=
  (rpc_failures_mapped (PluginsState.mk [] true none) "plugins.fetchError"
    (JsError.mk "ConnectError" "boom") 0
    (RunState.mk false [] none : RunState Nat) "w1" none none
    (GenState.mk false [] none none none : GenState Nat Nat) "p" 1 []
    rfl rfl (by decide)).2.1

/-- Result of parseWorkflowCode as destructured by WorkflowProgressDots
(src/components/workflow/WorkflowProgressDots.tsx:73): a possible parsed
workflow body and a possible parse error.  The ast-utils module itself is
not among the sources, so the parser and the action grouper are kept as
parameters of every statement about the component. -/
structure ParseResult (Body : Type) where
  workflowBody : Option Body
  parseError : Option String

/-- What WorkflowProgressDots renders: the no-steps placeholder, or one
step dot per action. -/
inductive DotsRender where
  | noSteps
  | dots (n : Nat)

/-- The number of step dots a render shows. -/
def dotCount : DotsRender → Nat
  | DotsRender.noSteps => 0
  | DotsRender.dots n => n

/-- Embedding of workflow.workflowCode[workflow.workflowCode.length - 1]
?.code (src/components/workflow/WorkflowProgressDots.tsx:67-68). -/
def latestCodeOf (workflow : Workflow) : Option String :=
  (workflow.workflowCode.getLast?).map (fun wc => wc.code)

/-- Embedding of the actions memo
(src/components/workflow/WorkflowProgressDots.tsx:71-76): an absent or
empty (falsy) latest code, a reported parse error, or a missing workflow
body each yield the empty list; otherwise the parsed body is grouped. -/
def computeActions {Body Action : Type}
    (parseWorkflowCode : String → ParseResult Body)
    (groupStatementsIntoActions : Body → List Action) (workflow : Workflow) :
    List Action :=
  match latestCodeOf workflow with
  | none => []
  | some code =>
    if code.isEmpty then []
    else
      match (parseWorkflowCode code).parseError with
      | some _ => []
      | none =>
        match (parseWorkflowCode code).workflowBody with
        | none => []
        | some body => groupStatementsIntoActions body

/-- Embedding of the component's render outcome
(src/components/workflow/WorkflowProgressDots.tsx:78-101): the no-steps
placeholder on an empty action list, otherwise one dot per action. -/
def renderDots {Body Action : Type}
    (parseWorkflowCode : String → ParseResult Body)
    (groupStatementsIntoActions : Body → List Action) (workflow : Workflow) :
    DotsRender :=
  if (computeActions parseWorkflowCode groupStatementsIntoActions
      workflow).length = 0 then DotsRender.noSteps
  else
    DotsRender.dots
      (computeActions parseWorkflowCode groupStatementsIntoActions
        workflow).length

/-- C6: WorkflowProgressDots turns workflow source into a structured
action list: with no (or falsy) latest code, a parse error or a missing
body the action list is empty and the placeholder is rendered; otherwise
the action list is the grouping of the parsed body and exactly one step
dot is rendered per action. -/
theorem workflowProgressDots_actions {Body Action : Type}
    (parseWorkflowCode : String → ParseResult Body)
    (groupStatementsIntoActions : Body → List Action) (workflow : Workflow) :
    ((latestCodeOf workflow = none ∨ latestCodeOf workflow = some "") →
       computeActions parseWorkflowCode groupStatementsIntoActions workflow
         = [] ∧
       renderDots parseWorkflowCode groupStatementsIntoActions workflow =
         DotsRender.noSteps) ∧
    (∀ c, latestCodeOf workflow = some c → ¬c = "" →
       (((parseWorkflowCode c).parseError ≠ none ∨
           (parseWorkflowCode c).workflowBody = none) →
          computeActions parseWorkflowCode groupStatementsIntoActions
            workflow = [] ∧
          renderDots parseWorkflowCode groupStatementsIntoActions workflow =
            DotsRender.noSteps) ∧
       (∀ body, (parseWorkflowCode c).parseError = none →
          (parseWorkflowCode c).workflowBody = some body →
          computeActions parseWorkflowCode groupStatementsIntoActions
            workflow = groupStatementsIntoActions body ∧
          dotCount (renderDots parseWorkflowCode groupStatementsIntoActions
            workflow) = (groupStatementsIntoActions body).length)) := by
  constructor
  · intro h
    have hempty : computeActions parseWorkflowCode groupStatementsIntoActions
        workflow = [] := by
      rcases h with h | h <;>
        simp [computeActions, h, show ("" : String).isEmpty = true from rfl]
    exact ⟨hempty, by simp [renderDots, hempty]⟩
  · intro c hc hne
    have hne2 : c.isEmpty = false := by
      cases hcc : c.isEmpty
      · rfl
      · exact absurd ((String.isEmpty_iff c).mp hcc) hne
    constructor
    · intro h
      have hempty : computeActions parseWorkflowCode
          groupStatementsIntoActions workflow = [] := by
        rcases h with h | h
        · cases hp : (parseWorkflowCode c).parseError with
          | none => exact absurd hp h
          | some msg => simp [computeActions, hc, hne2, hp]
        · cases hp : (parseWorkflowCode c).parseError with
          | none => simp [computeActions, hc, hne2, hp, h]
          | some msg => simp [computeActions, hc, hne2, hp]
      exact ⟨hempty, by simp [renderDots, hempty]⟩
    · intro body hperr hbody
      have hacts : computeActions parseWorkflowCode groupStatementsIntoActions
          workflow = groupStatementsIntoActions body := by
        simp [computeActions, hc, hne2, hperr, hbody]
      refine ⟨hacts, ?_⟩
      by_cases hlen : (groupStatementsIntoActions body).length = 0
      · simp [renderDots, hacts, hlen, dotCount]
      · simp [renderDots, hacts, hlen, dotCount]

/-- Witness for C6 at a concrete workflow, a parser that accepts its code
and a grouper producing two actions. -/
theorem workflowProgressDots_actions_witness :
    dotCount (renderDots (fun _ => ParseResult.mk (some ()) none)
      (fun _ => [0, 1])
      (Workflow.mk "w1" "Demo" [WorkflowCode.mk "c1" "body" [] []])) =
      ([0, 1] : List Nat).length :=
  ((workflowProgressDots_actions (fun _ => ParseResult.mk (some ()) none)
      (fun _ => ([0, 1] : List Nat))
      (Workflow.mk "w1" "Demo" [WorkflowCode.mk "c1" "body" [] []])).2
    "body" rfl (by decide)).2 () rfl rfl |>.2
